import Mathlib

/-!
# Verification of the Kudu block-manager contract

Shallow embedding of the block storage layer declared in
`src/src/kudu/fs/block_manager.h`.  The header declares only pure-virtual
interfaces (`WritableBlock`, `ReadableBlock`, `BlockManager`); no
implementation file is present in the repository, so the behaviour is
modelled from the specification (spec.md) and the header's documentation
comments, and the claims are settled against that model.

Bytes are modelled as `Nat`, byte sequences as `List Nat`, `BlockId` as a
`Nat` (the spec describes it as a 64-bit non-negative integer), and the
C++ `Status` as `Except ErrorKind`.
-/

namespace KuduFS

/-- Error kinds carried by `Status` results (spec §7: `NotFound`,
`AlreadyExists`, `IllegalState`, `OutOfRange`, `IOError`, `Corruption`). -/
inductive ErrorKind where
  | NotFound
  | AlreadyExists
  | IllegalState
  | OutOfRange
  | IOError
  | Corruption
deriving DecidableEq

/-- The enumeration WritableBlock::State (block_manager.h lines 51-64):
CLEAN, DIRTY, FLUSHING, CLOSED. -/
inductive WState where
  | CLEAN
  | DIRTY
  | FLUSHING
  | CLOSED
deriving DecidableEq

/-- Modelled from the spec: the state of a `WritableBlock` implementation
(block_manager.h lines 49-97 declares only the pure-virtual interface; no
implementation is in the repository).  Per spec §3 it owns an in-memory
append buffer and tracks bytes appended.  `flushBegun` records that
`FlushDataAsync` has been called on this handle (header line 90: data may
not be written to the block after `FlushDataAsync()` is called).
`ioFault` models whether the underlying storage will fail this block's
synchronization (spec §4.3: `Close` fails with `IOError` on any underlying
I/O failure). -/
structure WritableBlock where
  bid : Nat
  wstate : WState
  buffer : List Nat
  bytesAppended : Nat
  flushBegun : Bool
  ioFault : Bool
deriving DecidableEq

/-- Modelled from the spec: `WritableBlock::Append` (header lines 76-80,
spec §4.3).  Appends the data to the in-memory buffer and transitions
CLEAN→DIRTY; fails with `IllegalState` after `FlushDataAsync` or `Close`
(append-only ordering, header line 90 and spec §4.3). -/
def Append (w : WritableBlock) (data : List Nat) : Except ErrorKind WritableBlock :=
  if w.wstate = WState.CLOSED ∨ w.wstate = WState.FLUSHING ∨ w.flushBegun then
    .error .IllegalState
  else
    .ok { w with wstate := WState.DIRTY,
                 buffer := w.buffer ++ data,
                 bytesAppended := w.bytesAppended + data.length }

/-- Modelled from the spec: `WritableBlock::FlushDataAsync` (header lines
82-91, spec §4.3).  Transitions DIRTY→FLUSHING; a no-op returning success
when already CLEAN; fails with `IllegalState` on a CLOSED block.  In every
successful case it records that writes are no longer permitted. -/
def FlushDataAsync (w : WritableBlock) : Except ErrorKind WritableBlock :=
  match w.wstate with
  | WState.CLOSED => .error .IllegalState
  | WState.CLEAN => .ok { w with flushBegun := true }
  | WState.DIRTY => .ok { w with wstate := WState.FLUSHING, flushBegun := true }
  | WState.FLUSHING => .ok { w with flushBegun := true }

/-- Modelled from the spec: completion of the asynchronous flush (spec §3:
FLUSHING → CLEAN when the async flush completes).  This is an internal
event of the implementation, not a caller-invoked operation. -/
def FlushComplete (w : WritableBlock) : WritableBlock :=
  if w.wstate = WState.FLUSHING then { w with wstate := WState.CLEAN } else w

/-- Modelled from the spec: `WritableBlock::Close` at the handle level
(header lines 68-71, spec §4.3), returning the updated handle together
with an optional error.  Closing an already CLOSED block fails with
`IllegalState` (spec §3: all operations on a CLOSED block fail); an
underlying I/O failure surfaces as `IOError` and the block does not reach
CLOSED. -/
def closeWB (w : WritableBlock) : WritableBlock × Option ErrorKind :=
  if w.wstate = WState.CLOSED then (w, some .IllegalState)
  else if w.ioFault then (w, some .IOError)
  else ({ w with wstate := WState.CLOSED }, none)

/-- The operation `WritableBlock::Close` as a `Status`-returning operation. -/
def Close (w : WritableBlock) : Except ErrorKind WritableBlock :=
  match closeWB w with
  | (wc, none) => .ok wc
  | (_, some e) => .error e

/-- The observer `WritableBlock::BytesAppended` (header lines 93-94): the number of
bytes successfully appended via `Append`.  A `const` observer; it cannot
fail and is available in every state. -/
def BytesAppended (w : WritableBlock) : Nat :=
  w.bytesAppended

/-- The events a `WritableBlock` participates in: the three mutating
caller operations plus the internal flush-completion event. -/
inductive WEvent where
  | append (data : List Nat)
  | flushAsync
  | flushComplete
  | close
deriving DecidableEq

/-- One step of the writer state machine. -/
def wstep (w : WritableBlock) : WEvent → Except ErrorKind WritableBlock
  | .append d => Append w d
  | .flushAsync => FlushDataAsync w
  | .flushComplete => .ok (FlushComplete w)
  | .close => Close w

/-- Run a sequence of writer events, failing at the first failing event. -/
def runTrace (w : WritableBlock) : List WEvent → Except ErrorKind WritableBlock
  | [] => .ok w
  | e :: es =>
    match wstep w e with
    | .ok w2 => runTrace w2 es
    | .error err => .error err

/-- A freshly opened writer: initial state CLEAN, empty buffer, zero bytes
appended (spec §3: initial CLEAN). -/
def freshWriter (id : Nat) (fault : Bool) : WritableBlock :=
  { bid := id, wstate := WState.CLEAN, buffer := [], bytesAppended := 0,
    flushBegun := false, ioFault := fault }

/-- Fold `Append` over a list of chunks, failing at the first failure. -/
def appendAll (w : WritableBlock) : List (List Nat) → Except ErrorKind WritableBlock
  | [] => .ok w
  | d :: ds =>
    match Append w d with
    | .ok w2 => appendAll w2 ds
    | .error err => .error err

/-- Modelled from the spec: the state of a `ReadableBlock` implementation
(header lines 99-121; no implementation is in the repository).  Blocks are
immutable once written (header line 26), so an open reader carries the
block's byte content together with an open/closed flag (spec §3:
"stateless beyond an open/closed flag and a size cache"). -/
structure ReadableBlock where
  bid : Nat
  data : List Nat
  closed : Bool
deriving DecidableEq

/-- Modelled from the spec: `ReadableBlock::Read` (header lines 112-120,
spec §4.2).  Reads exactly `length` bytes beginning at `offset`, failing
with `OutOfRange` when `offset + length` exceeds the block's size; partial
reads are never returned. -/
def Read (rb : ReadableBlock) (offset length : Nat) : Except ErrorKind (List Nat) :=
  if rb.closed then .error .IllegalState
  else if rb.data.length < offset + length then .error .OutOfRange
  else .ok ((rb.data.drop offset).take length)

/-- Modelled from the spec: `ReadableBlock::Size` (header line 110, spec
§4.2): the fully-written byte length. -/
def Size (rb : ReadableBlock) : Except ErrorKind Nat :=
  if rb.closed then .error .IllegalState else .ok rb.data.length

/-- Modelled from the spec: one entry of the manager's directory (spec §3:
the mapping from live `BlockId` to its on-disk location and open-handle
refcount).  `content` is the block's byte content, `durable` records that
the block's writer closed successfully (spec §3: a `BlockId` is visible to
`OpenBlock` only once durably created), `deleted` marks logical deletion
pending reclamation (spec §4.4), and the refcounts track open readers and
writers. -/
structure DirEntry where
  content : List Nat
  durable : Bool
  deleted : Bool
  readerRefs : Nat
  writerRefs : Nat
deriving DecidableEq

/-- Modelled from the spec: the `BlockManager` directory plus the
monotonically increasing counter used to generate anonymous block IDs
(spec §4.1). -/
structure BlockManager where
  dir : List (Nat × DirEntry)
  nextId : Nat
deriving DecidableEq

/-- Look up the directory entry for a block ID. -/
def dirLookup : List (Nat × DirEntry) → Nat → Option DirEntry
  | [], _ => none
  | (k, e) :: rest, id => if k = id then some e else dirLookup rest id

/-- Apply `f` to the (first) directory entry for `id`, if present. -/
def dirUpdate : List (Nat × DirEntry) → Nat → (DirEntry → DirEntry) → List (Nat × DirEntry)
  | [], _, _ => []
  | (k, e) :: rest, id, f =>
    if k = id then (k, f e) :: rest else (k, e) :: dirUpdate rest id f

/-- Remove every directory entry for `id` (physical reclamation). -/
def dirRemove (d : List (Nat × DirEntry)) (id : Nat) : List (Nat × DirEntry) :=
  d.filter (fun p => p.1 ≠ id)

/-- Modelled from the spec: physical reclamation (spec §4.4): an entry is
removed only once it is marked deleted and the refcount of open readers
and writers has reached zero. -/
def reclaimIfUnreferenced (m : BlockManager) (id : Nat) : BlockManager :=
  match dirLookup m.dir id with
  | none => m
  | some e =>
    if e.deleted ∧ e.readerRefs = 0 ∧ e.writerRefs = 0 then
      { m with dir := dirRemove m.dir id }
    else m

/-- Modelled from the spec: the shared creation path of
`CreateNamedBlock`/`CreateAnonymousBlock` (header lines 143-169, spec
§4.4): fails with `AlreadyExists` when the ID already has a directory
entry (live or pending deletion); otherwise registers the block with a
single open writer and returns a fresh writer handle. -/
def createBlockWith (m : BlockManager) (id : Nat) (fault : Bool) :
    Except ErrorKind (BlockManager × WritableBlock) :=
  match dirLookup m.dir id with
  | some _ => .error .AlreadyExists
  | none =>
    .ok ({ m with
            dir := (id, { content := [], durable := false, deleted := false,
                          readerRefs := 0, writerRefs := 1 }) :: m.dir },
         freshWriter id fault)

/-- Modelled from the spec: `BlockManager::CreateNamedBlock` (header lines
156-169, spec §4.4): opens a writer for a caller-specified ID; fails with
`AlreadyExists` if the ID is already live or pending deletion. -/
def CreateNamedBlock (m : BlockManager) (id : Nat) (fault : Bool) :
    Except ErrorKind (BlockManager × WritableBlock) :=
  createBlockWith m id fault

/-- The largest identifier currently assigned in the directory (zero when
the directory is empty).  Used by ID generation to stay clear of every
live or pending-delete block. -/
def maxAssigned : List (Nat × DirEntry) → Nat
  | [] => 0
  | (k, _) :: rest => max k (maxAssigned rest)

/-- Modelled from the spec: `GenerateId` (spec §4.1): produces an
identifier not currently assigned to any live or pending-delete block in
this manager's namespace — the monotonically increasing counter, bumped
past every identifier observed in the directory (including caller-chosen
named IDs). -/
def GenerateId (m : BlockManager) : Nat :=
  max m.nextId (maxAssigned m.dir + 1)

/-- Modelled from the spec: `BlockManager::CreateAnonymousBlock` (header
lines 143-154, spec §4.4): generates a fresh ID via `GenerateId` (spec
§4.1) and opens a writer for it. -/
def CreateAnonymousBlock (m : BlockManager) (fault : Bool) :
    Except ErrorKind (BlockManager × WritableBlock) :=
  createBlockWith { m with nextId := GenerateId m + 1 } (GenerateId m) fault

/-- Modelled from the spec: `BlockManager::OpenBlock` (header lines
171-175, spec §4.4): fails with `NotFound` unless the ID is durably
created and not deleted; on success increments the open-reader refcount
and returns a reader over the block's content. -/
def OpenBlock (m : BlockManager) (id : Nat) :
    Except ErrorKind (BlockManager × ReadableBlock) :=
  match dirLookup m.dir id with
  | none => .error .NotFound
  | some e =>
    if e.deleted ∨ e.durable = false then .error .NotFound
    else
      .ok ({ m with dir := dirUpdate m.dir id
                      (fun en => { en with readerRefs := en.readerRefs + 1 }) },
           { bid := id, data := e.content, closed := false })

/-- Modelled from the spec: `BlockManager::DeleteBlock` (header lines
177-183, spec §4.4): marks the ID deleted immediately; the storage is
reclaimed only once no open reader or writer remains.  Fails with
`NotFound` if the ID is not currently live. -/
def DeleteBlock (m : BlockManager) (id : Nat) : Except ErrorKind BlockManager :=
  match dirLookup m.dir id with
  | none => .error .NotFound
  | some e =>
    if e.deleted then .error .NotFound
    else
      .ok (reclaimIfUnreferenced
            { m with dir := dirUpdate m.dir id (fun en => { en with deleted := true }) }
            id)

/-- Modelled from the spec: closing a `ReadableBlock` through the manager
(spec §4.2): marks the handle closed, decrements the open-reader refcount
and triggers deferred reclamation when it was the last reference. -/
def ManagerCloseReader (m : BlockManager) (rb : ReadableBlock) :
    Except ErrorKind (BlockManager × ReadableBlock) :=
  if rb.closed then .error .IllegalState
  else
    .ok (reclaimIfUnreferenced
          { m with dir := dirUpdate m.dir rb.bid
                    (fun en => { en with readerRefs := en.readerRefs - 1 }) }
          rb.bid,
         { rb with closed := true })

/-- Modelled from the spec: the directory side of a successful writer
`Close` (spec §4.3): durably persists the block's content and metadata,
releases the writer reference and triggers deferred reclamation if the
block was deleted while being written. -/
def finalizeWriter (m : BlockManager) (id : Nat) (bytes : List Nat) : BlockManager :=
  reclaimIfUnreferenced
    { m with dir := dirUpdate m.dir id
              (fun en => { en with content := bytes, durable := true,
                                   writerRefs := en.writerRefs - 1 }) }
    id

/-- Modelled from the spec: `WritableBlock::Close` observed at the manager
(header lines 68-71, spec §4.3): on success the block's content becomes
durable and discoverable via `OpenBlock`. -/
def WriterClose (m : BlockManager) (w : WritableBlock) :
    Except ErrorKind (BlockManager × WritableBlock) :=
  match closeWB w with
  | (wc, none) => .ok (finalizeWriter m w.bid w.buffer, wc)
  | (_, some err) => .error err

/-- First error of a list of per-block outcomes. -/
def firstError : List (Option ErrorKind) → Option ErrorKind
  | [] => none
  | some e :: _ => some e
  | none :: rest => firstError rest

/-- Modelled from the spec: `BlockManager::CloseBlocks` (header lines
185-189, spec §4.4): closes every block of the group and reports the first
encountered error. -/
def CloseBlocks : List WritableBlock → List WritableBlock × Option ErrorKind
  | [] => ([], none)
  | w :: ws =>
    let r := closeWB w
    let rest := CloseBlocks ws
    (r.1 :: rest.1,
     match r.2 with
     | some e => some e
     | none => rest.2)

/-- Erase the flush events (`FlushDataAsync` calls and their completions)
from a writer trace, keeping the `Append`s and the `Close`. -/
def dropFlushes (t : List WEvent) : List WEvent :=
  t.filter (fun e =>
    match e with
    | .flushAsync => false
    | .flushComplete => false
    | _ => true)

/-- Simulation relation between a writer running a trace with flush events
(`w`) and the same writer running the trace with the flush events omitted
(`v`): the observable data (buffer, byte count, identity, fault model)
agree, the flush-free run never enters FLUSHING nor forbids appends, and
the two runs are closed at the same time. -/
def simR (w v : WritableBlock) : Prop :=
  v.buffer = w.buffer ∧ v.bytesAppended = w.bytesAppended ∧ v.bid = w.bid ∧
  v.ioFault = w.ioFault ∧ v.flushBegun = false ∧
  v.wstate ≠ WState.FLUSHING ∧
  (w.wstate = WState.CLOSED ↔ v.wstate = WState.CLOSED)

/-- Total length of the data carried by the `append` events of a trace. -/
def appendedBytes : List WEvent → Nat
  | [] => 0
  | .append d :: es => d.length + appendedBytes es
  | _ :: es => appendedBytes es

/-- Modelled from the spec: the C++ out-parameter discipline of
`BlockManager::CreateAnonymousBlock` (header lines 149-151: does not
modify `block` on error).  The caller's output variable, threaded
explicitly, is overwritten only on success. -/
def createAnonymousBlockOut (m : BlockManager) (fault : Bool)
    (out : Option WritableBlock) : Except ErrorKind BlockManager × Option WritableBlock :=
  match CreateAnonymousBlock m fault with
  | .ok (m2, w) => (.ok m2, some w)
  | .error e => (.error e, out)

/-- Modelled from the spec: the C++ out-parameter discipline of
`BlockManager::CreateNamedBlock` (header lines 162-165: does not modify
`block` on error). -/
def createNamedBlockOut (m : BlockManager) (id : Nat) (fault : Bool)
    (out : Option WritableBlock) : Except ErrorKind BlockManager × Option WritableBlock :=
  match CreateNamedBlock m id fault with
  | .ok (m2, w) => (.ok m2, some w)
  | .error e => (.error e, out)

/-- Modelled from the spec: the C++ out-parameter discipline of
`BlockManager::OpenBlock` (header lines 171-175: does not modify `block`
on error). -/
def openBlockOut (m : BlockManager) (id : Nat)
    (out : Option ReadableBlock) : Except ErrorKind BlockManager × Option ReadableBlock :=
  match OpenBlock m id with
  | .ok (m2, rb) => (.ok m2, some rb)
  | .error e => (.error e, out)

theorem append_ok_iff (w w2 : WritableBlock) (d : List Nat) :
    Append w d = .ok w2 ↔
    (w.wstate = WState.CLEAN ∨ w.wstate = WState.DIRTY) ∧ w.flushBegun = false ∧
    w2 = { w with wstate := WState.DIRTY, buffer := w.buffer ++ d,
                  bytesAppended := w.bytesAppended + d.length } := by
  unfold Append
  cases hw : w.wstate <;> by_cases hf : w.flushBegun <;>
    simp [hw, hf, eq_comm]

theorem flushDataAsync_ok_iff (w w2 : WritableBlock) :
    FlushDataAsync w = .ok w2 ↔
    w.wstate ≠ WState.CLOSED ∧
    w2 = { w with
            wstate := if w.wstate = WState.DIRTY then WState.FLUSHING else w.wstate,
            flushBegun := true } := by
  cases hw : w.wstate <;> simp [FlushDataAsync, hw, eq_comm]

theorem close_ok_iff (w w2 : WritableBlock) :
    Close w = .ok w2 ↔
    w.wstate ≠ WState.CLOSED ∧ w.ioFault = false ∧
    w2 = { w with wstate := WState.CLOSED } := by
  unfold Close closeWB
  by_cases hC : w.wstate = WState.CLOSED
  · simp [hC]
  · by_cases hio : w.ioFault <;> simp [hC, hio, eq_comm]

theorem dirLookup_update_self (d : List (Nat × DirEntry)) (id : Nat)
    (f : DirEntry → DirEntry) :
    dirLookup (dirUpdate d id f) id = (dirLookup d id).map f := by
  induction d with
  | nil => rfl
  | cons p rest ih =>
    obtain ⟨k, e⟩ := p
    by_cases hk : k = id
    · simp [dirUpdate, dirLookup, hk]
    · simp [dirUpdate, dirLookup, hk, ih]

theorem dirLookup_remove_self (d : List (Nat × DirEntry)) (id : Nat) :
    dirLookup (dirRemove d id) id = none := by
  induction d with
  | nil => rfl
  | cons p rest ih =>
    obtain ⟨k, e⟩ := p
    by_cases hk : k = id
    · simpa [dirRemove, hk] using ih
    · simpa [dirRemove, dirLookup, hk] using ih

theorem append_ok_fields (w w2 : WritableBlock) (d : List Nat)
    (h : Append w d = .ok w2) :
    w2.buffer = w.buffer ++ d ∧ w2.bid = w.bid ∧ w2.ioFault = w.ioFault ∧
    w2.bytesAppended = w.bytesAppended + d.length ∧ w2.wstate = WState.DIRTY ∧
    w2.flushBegun = w.flushBegun := by
  unfold Append at h
  split at h
  · exact absurd h (by simp)
  · obtain rfl : _ = w2 := by simpa using h
    simp

theorem appendAll_ok_fields (ds : List (List Nat)) : ∀ w w2 : WritableBlock,
    appendAll w ds = .ok w2 →
    w2.buffer = w.buffer ++ ds.flatten ∧ w2.bid = w.bid ∧ w2.ioFault = w.ioFault ∧
    w2.bytesAppended = w.bytesAppended + ds.flatten.length := by
  induction ds with
  | nil =>
    intro w w2 h
    obtain rfl : w = w2 := by simpa [appendAll] using h
    simp
  | cons d ds ih =>
    intro w w2 h
    unfold appendAll at h
    cases hA : Append w d with
    | error e => rw [hA] at h; exact absurd h (by simp)
    | ok w1 =>
      rw [hA] at h
      obtain ⟨hb, hbid, hio, hba⟩ := ih w1 w2 h
      obtain ⟨hb1, hbid1, hio1, hba1, _, _⟩ := append_ok_fields w w1 d hA
      refine ⟨?_, by rw [hbid, hbid1], by rw [hio, hio1], ?_⟩
      · rw [hb, hb1, List.append_assoc, List.flatten_cons]
      · rw [hba, hba1, List.flatten_cons]
        simp [Nat.add_assoc]

/-- C1: every sequence of successful `Append` calls on a `WritableBlock`
followed by a successful `Close`, then `OpenBlock` on the block's ID and a
full-length `Read`, returns exactly the concatenation of the appended byte
sequences in call order. -/
theorem c1_append_close_open_read
    (m m1 m2 : BlockManager) (id : Nat) (fault : Bool)
    (w0 w1 w2 : WritableBlock) (datas : List (List Nat))
    (hc : CreateNamedBlock m id fault = .ok (m1, w0))
    (ha : appendAll w0 datas = .ok w1)
    (hcl : WriterClose m1 w1 = .ok (m2, w2)) :
    ∃ m3 rb, OpenBlock m2 id = .ok (m3, rb) ∧ rb.data = datas.flatten ∧
      Read rb 0 datas.flatten.length = .ok datas.flatten := by
  unfold CreateNamedBlock createBlockWith at hc
  cases hL : dirLookup m.dir id with
  | some e => rw [hL] at hc; exact absurd hc (by simp)
  | none =>
    rw [hL] at hc
    simp only [Except.ok.injEq, Prod.mk.injEq] at hc
    obtain ⟨hm1, hw0⟩ := hc
    obtain ⟨hbuf, hbid, _, _⟩ := appendAll_ok_fields datas w0 w1 ha
    rw [← hw0] at hbuf hbid
    simp [freshWriter] at hbuf hbid
    unfold WriterClose at hcl
    cases hCW : closeWB w1 with
    | mk wc oe =>
      rw [hCW] at hcl
      cases oe with
      | some err => exact absurd hcl (by simp)
      | none =>
        simp only [Except.ok.injEq, Prod.mk.injEq] at hcl
        obtain ⟨hm2, hwc⟩ := hcl
        have hdir1 : dirLookup m1.dir id =
            some { content := [], durable := false, deleted := false,
                   readerRefs := 0, writerRefs := 1 } := by
          rw [← hm1]; simp [dirLookup]
        have hdir2 : dirLookup m2.dir id =
            some { content := datas.flatten, durable := true, deleted := false,
                   readerRefs := 0, writerRefs := 0 } := by
          rw [← hm2]
          unfold finalizeWriter reclaimIfUnreferenced
          rw [hbid, hbuf]
          simp only [dirLookup_update_self, hdir1, Option.map_some]
          simp
          rw [dirLookup_update_self, hdir1]
          simp
        have hopen : OpenBlock m2 id = .ok
            ({ m2 with dir := dirUpdate m2.dir id
                         (fun en => { en with readerRefs := en.readerRefs + 1 }) },
             { bid := id, data := datas.flatten, closed := false }) := by
          unfold OpenBlock
          rw [hdir2]
          simp
        refine ⟨_, _, hopen, rfl, ?_⟩
        unfold Read
        simp

/-- Witness for C1 at a concrete run: create block 7, append [1,2] then
[3], close, reopen and read back [1,2,3]. -/
theorem c1_witness :
    ∃ m3 rb, OpenBlock ⟨[(7, ⟨[1,2,3], true, false, 0, 0⟩)], 0⟩ 7 = .ok (m3, rb) ∧
      rb.data = [1,2,3] ∧ Read rb 0 3 = .ok [1,2,3] :=
  c1_append_close_open_read ⟨[], 0⟩ ⟨[(7, ⟨[], false, false, 0, 1⟩)], 0⟩
    ⟨[(7, ⟨[1,2,3], true, false, 0, 0⟩)], 0⟩ 7 false
    ⟨7, WState.CLEAN, [], 0, false, false⟩
    ⟨7, WState.DIRTY, [1,2,3], 3, false, false⟩
    ⟨7, WState.CLOSED, [1,2,3], 3, false, false⟩
    [[1,2],[3]] rfl rfl rfl

/-- C2: on an open `ReadableBlock`, `Read(offset, length)` fails with
`OutOfRange` when `offset + length` exceeds the block's size, and every
successful `Read` returns exactly `length` bytes. -/
theorem c2_read_exact (rb : ReadableBlock) (offset length : Nat)
    (hopen : rb.closed = false) :
    (rb.data.length < offset + length → Read rb offset length = .error .OutOfRange) ∧
    (∀ bs, Read rb offset length = .ok bs → bs.length = length) := by
  constructor
  · intro h
    simp [Read, hopen, h]
  · intro bs h
    simp only [Read, hopen, Bool.false_eq_true, if_false] at h
    split at h
    · exact absurd h (by simp)
    · rename_i hle
      obtain rfl : (rb.data.drop offset).take length = bs := by simpa using h
      rw [List.length_take, List.length_drop]
      omega

/-- Witness for C2 at a concrete open reader over three bytes. -/
theorem c2_witness :
    (([1,2,3] : List Nat).length < 1 + 2 →
      Read ⟨0, [1,2,3], false⟩ 1 2 = .error .OutOfRange) ∧
    (∀ bs, Read ⟨0, [1,2,3], false⟩ 1 2 = .ok bs → bs.length = 2) :=
  c2_read_exact ⟨0, [1,2,3], false⟩ 1 2 rfl

/-- C3: a fresh `WritableBlock` starts CLEAN; a successful `Append` only
makes the transition CLEAN→DIRTY (or leaves DIRTY in place), a successful
`FlushDataAsync` only DIRTY→FLUSHING (otherwise a state-preserving no-op),
flush completion only FLUSHING→CLEAN, a successful `Close` reaches CLOSED
from a non-CLOSED state; no successful event leaves CLOSED, and every
mutating operation invoked on a CLOSED block fails. -/
theorem c3_writer_state_machine :
    (∀ id fault, (freshWriter id fault).wstate = WState.CLEAN) ∧
    (∀ w d w2, Append w d = .ok w2 →
      (w.wstate = WState.CLEAN ∨ w.wstate = WState.DIRTY) ∧
      w2.wstate = WState.DIRTY) ∧
    (∀ w w2, FlushDataAsync w = .ok w2 →
      (w.wstate = WState.DIRTY ∧ w2.wstate = WState.FLUSHING) ∨
      w2.wstate = w.wstate) ∧
    (∀ w, (FlushComplete w).wstate =
      if w.wstate = WState.FLUSHING then WState.CLEAN else w.wstate) ∧
    (∀ w w2, Close w = .ok w2 →
      w.wstate ≠ WState.CLOSED ∧ w2.wstate = WState.CLOSED) ∧
    (∀ w e w2, wstep w e = .ok w2 →
      w.wstate = WState.CLOSED → w2.wstate = WState.CLOSED) ∧
    (∀ w e, w.wstate = WState.CLOSED → e ≠ WEvent.flushComplete →
      ∃ err, wstep w e = .error err) := by
  refine ⟨fun id fault => rfl, ?_, ?_, ?_, ?_, ?_, ?_⟩
  · intro w d w2 h
    rw [append_ok_iff] at h
    obtain ⟨hs, _, rfl⟩ := h
    exact ⟨hs, rfl⟩
  · intro w w2 h
    rw [flushDataAsync_ok_iff] at h
    obtain ⟨hs, rfl⟩ := h
    by_cases hd : w.wstate = WState.DIRTY
    · left
      exact ⟨hd, by simp [hd]⟩
    · right
      simp [hd]
  · intro w
    unfold FlushComplete
    split <;> simp_all
  · intro w w2 h
    rw [close_ok_iff] at h
    obtain ⟨hs, _, rfl⟩ := h
    exact ⟨hs, rfl⟩
  · intro w e w2 h hC
    cases e with
    | append d =>
      rw [wstep, append_ok_iff] at h
      rcases h.1 with h1 | h1 <;> rw [hC] at h1 <;> exact absurd h1 (by simp)
    | flushAsync =>
      rw [wstep, flushDataAsync_ok_iff] at h
      exact absurd hC h.1
    | flushComplete =>
      obtain rfl : FlushComplete w = w2 := by simpa [wstep] using h
      simp [FlushComplete, hC]
    | close =>
      rw [wstep, close_ok_iff] at h
      exact absurd hC h.1
  · intro w e hC he
    cases e with
    | append d => exact ⟨.IllegalState, by simp [wstep, Append, hC]⟩
    | flushAsync => exact ⟨.IllegalState, by simp [wstep, FlushDataAsync, hC]⟩
    | flushComplete => exact absurd rfl he
    | close => exact ⟨.IllegalState, by simp [wstep, Close, closeWB, hC]⟩

/-- Witness for C3: fresh writer is CLEAN, and `Append` on a CLOSED block
fails. -/
theorem c3_witness :
    (freshWriter 1 false).wstate = WState.CLEAN ∧
    ∃ err, wstep ⟨1, WState.CLOSED, [], 0, false, false⟩ (WEvent.append [5]) =
      .error err :=
  ⟨c3_writer_state_machine.1 1 false,
   c3_writer_state_machine.2.2.2.2.2.2 ⟨1, WState.CLOSED, [], 0, false, false⟩
     (WEvent.append [5]) rfl (by simp)⟩

/-- C4: once `FlushDataAsync` has been called (which every successful
`FlushDataAsync` records, and which every later successful event
preserves) or the block is CLOSED, `Append` fails with `IllegalState`. -/
theorem c4_no_append_after_flush_or_close :
    (∀ w w2, FlushDataAsync w = .ok w2 → w2.flushBegun = true) ∧
    (∀ w e w2, wstep w e = .ok w2 → w.flushBegun = true → w2.flushBegun = true) ∧
    (∀ w d, w.flushBegun = true ∨ w.wstate = WState.CLOSED →
      Append w d = .error .IllegalState) := by
  refine ⟨?_, ?_, ?_⟩
  · intro w w2 h
    rw [flushDataAsync_ok_iff] at h
    obtain ⟨_, rfl⟩ := h
    rfl
  · intro w e w2 h hF
    cases e with
    | append d =>
      rw [wstep, append_ok_iff] at h
      rw [hF] at h
      exact absurd h.2.1 (by simp)
    | flushAsync =>
      rw [wstep, flushDataAsync_ok_iff] at h
      obtain ⟨_, rfl⟩ := h
      rfl
    | flushComplete =>
      obtain rfl : FlushComplete w = w2 := by simpa [wstep] using h
      unfold FlushComplete
      split <;> simpa using hF
    | close =>
      rw [wstep, close_ok_iff] at h
      obtain ⟨_, _, rfl⟩ := h
      simpa using hF
  · intro w d h
    unfold Append
    rcases h with h | h
    · simp [h]
    · simp [h]

theorem flushComplete_fields (w : WritableBlock) :
    (FlushComplete w).buffer = w.buffer ∧
    (FlushComplete w).bytesAppended = w.bytesAppended ∧
    (FlushComplete w).bid = w.bid ∧
    (FlushComplete w).ioFault = w.ioFault ∧
    (FlushComplete w).flushBegun = w.flushBegun ∧
    ((FlushComplete w).wstate = WState.CLOSED ↔ w.wstate = WState.CLOSED) := by
  unfold FlushComplete
  split
  · rename_i hfl
    refine ⟨rfl, rfl, rfl, rfl, rfl, ?_⟩
    rw [hfl]
    simp
  · exact ⟨rfl, rfl, rfl, rfl, rfl, Iff.rfl⟩

theorem simR_run (t : List WEvent) : ∀ w v w2 : WritableBlock, simR w v →
    runTrace w t = .ok w2 →
    ∃ v2, runTrace v (dropFlushes t) = .ok v2 ∧ simR w2 v2 := by
  induction t with
  | nil =>
    intro w v w2 hR h
    obtain rfl : w = w2 := by simpa [runTrace] using h
    exact ⟨v, by simp [dropFlushes, runTrace], hR⟩
  | cons e es ih =>
    intro w v w2 hR h
    obtain ⟨hbuf, hba, hbid, hio, hfb, hnf, hcl⟩ := hR
    unfold runTrace at h
    cases e with
    | append d =>
      rw [wstep] at h
      cases hA : Append w d with
      | error err => rw [hA] at h; exact absurd h (by simp)
      | ok w1 =>
        rw [hA] at h
        rw [append_ok_iff] at hA
        obtain ⟨hws, hwf, rfl⟩ := hA
        have hvs : v.wstate = WState.CLEAN ∨ v.wstate = WState.DIRTY := by
          have hvnc : v.wstate ≠ WState.CLOSED := by
            intro hc
            rcases hws with h1 | h1 <;> rw [hcl.mpr hc] at h1 <;> simp at h1
          cases hv : v.wstate <;> simp_all
        have hvA : Append v d =
            .ok ⟨v.bid, WState.DIRTY, v.buffer ++ d, v.bytesAppended + d.length,
                 v.flushBegun, v.ioFault⟩ := by
          rw [append_ok_iff]
          exact ⟨hvs, hfb, rfl⟩
        obtain ⟨v2, hrun, hR2⟩ := ih
          ⟨w.bid, WState.DIRTY, w.buffer ++ d, w.bytesAppended + d.length,
           w.flushBegun, w.ioFault⟩
          ⟨v.bid, WState.DIRTY, v.buffer ++ d, v.bytesAppended + d.length,
           v.flushBegun, v.ioFault⟩
          w2
          ⟨by simp [hbuf], by simp [hba], by simp [hbid], by simp [hio],
           by simp [hfb], by simp, by simp⟩ h
        refine ⟨v2, ?_, hR2⟩
        simp only [dropFlushes, List.filter_cons] at hrun ⊢
        simpa [runTrace, wstep, hvA] using hrun
    | flushAsync =>
      rw [wstep] at h
      cases hA : FlushDataAsync w with
      | error err => rw [hA] at h; exact absurd h (by simp)
      | ok w1 =>
        rw [hA] at h
        rw [flushDataAsync_ok_iff] at hA
        obtain ⟨hwnc, rfl⟩ := hA
        have hcl2 : (if w.wstate = WState.DIRTY then WState.FLUSHING else w.wstate)
            = WState.CLOSED ↔ v.wstate = WState.CLOSED := by
          constructor
          · intro hc
            split at hc
            · simp at hc
            · exact hcl.mp hc
          · intro hc
            exact absurd (hcl.mpr hc) hwnc
        obtain ⟨v2, hrun, hR2⟩ := ih
          ⟨w.bid, if w.wstate = WState.DIRTY then WState.FLUSHING else w.wstate,
           w.buffer, w.bytesAppended, true, w.ioFault⟩
          v w2
          ⟨by simp [hbuf], by simp [hba], by simp [hbid], by simp [hio],
           hfb, hnf, by simpa using hcl2⟩ h
        refine ⟨v2, ?_, hR2⟩
        simpa [dropFlushes, List.filter_cons] using hrun
    | flushComplete =>
      rw [wstep] at h
      obtain ⟨f1, f2, f3, f4, f5, f6⟩ := flushComplete_fields w
      obtain ⟨v2, hrun, hR2⟩ := ih (FlushComplete w) v w2
        ⟨by rw [f1]; exact hbuf, by rw [f2]; exact hba, by rw [f3]; exact hbid,
         by rw [f4]; exact hio, hfb, hnf, by rw [f6]; exact hcl⟩ h
      refine ⟨v2, ?_, hR2⟩
      simpa [dropFlushes, List.filter_cons] using hrun
    | close =>
      rw [wstep] at h
      cases hA : Close w with
      | error err => rw [hA] at h; exact absurd h (by simp)
      | ok w1 =>
        rw [hA] at h
        rw [close_ok_iff] at hA
        obtain ⟨hwnc, hiof, rfl⟩ := hA
        have hvnc : v.wstate ≠ WState.CLOSED := fun hc => absurd (hcl.mpr hc) hwnc
        have hvC : Close v =
            .ok ⟨v.bid, WState.CLOSED, v.buffer, v.bytesAppended,
                 v.flushBegun, v.ioFault⟩ := by
          rw [close_ok_iff]
          exact ⟨hvnc, by rw [hio, hiof], rfl⟩
        obtain ⟨v2, hrun, hR2⟩ := ih
          ⟨w.bid, WState.CLOSED, w.buffer, w.bytesAppended, w.flushBegun, w.ioFault⟩
          ⟨v.bid, WState.CLOSED, v.buffer, v.bytesAppended, v.flushBegun, v.ioFault⟩
          w2
          ⟨by simp [hbuf], by simp [hba], by simp [hbid], by simp [hio],
           by simp [hfb], by simp, by simp⟩ h
        refine ⟨v2, ?_, hR2⟩
        simp only [dropFlushes, List.filter_cons] at hrun ⊢
        simpa [runTrace, wstep, hvC] using hrun

/-- C5: `FlushDataAsync` on a CLEAN block is a success-returning no-op
(state stays CLEAN, buffer and byte count untouched), and omitting the
flush events from any successful writer trace yields a successful trace
with the same final block content (hence, via C1, the same bytes are
observable after `Close` through `OpenBlock` and `Read`). -/
theorem c5_flush_is_optional :
    (∀ w, w.wstate = WState.CLEAN →
      ∃ w2, FlushDataAsync w = .ok w2 ∧ w2.wstate = WState.CLEAN ∧
        w2.buffer = w.buffer ∧ w2.bytesAppended = w.bytesAppended) ∧
    (∀ (id : Nat) (fault : Bool) (t : List WEvent) (w2 : WritableBlock),
      runTrace (freshWriter id fault) t = .ok w2 →
      ∃ v2, runTrace (freshWriter id fault) (dropFlushes t) = .ok v2 ∧
        v2.buffer = w2.buffer ∧ v2.bytesAppended = w2.bytesAppended ∧
        (w2.wstate = WState.CLOSED ↔ v2.wstate = WState.CLOSED)) := by
  constructor
  · intro w hw
    refine ⟨{ w with flushBegun := true }, ?_, by simp [hw], rfl, rfl⟩
    rw [flushDataAsync_ok_iff]
    constructor
    · rw [hw]; simp
    · rw [hw]; simp
  · intro id fault t w2 h
    obtain ⟨v2, hrun, hR2⟩ := simR_run t (freshWriter id fault) (freshWriter id fault)
      w2 (by simp [simR, freshWriter]) h
    exact ⟨v2, hrun, hR2.1, hR2.2.1, hR2.2.2.2.2.2.2⟩

/-- Witness for C5: the trace append [1]; flush; close and its flush-free
counterpart produce the same closed content. -/
theorem c5_witness :
    (∃ w2, FlushDataAsync ⟨1, WState.CLEAN, [2], 1, false, false⟩ = .ok w2 ∧
      w2.wstate = WState.CLEAN ∧ w2.buffer = [2] ∧ w2.bytesAppended = 1) ∧
    ∃ v2, runTrace (freshWriter 1 false)
        (dropFlushes [WEvent.append [9], WEvent.flushAsync, WEvent.close]) = .ok v2 ∧
      v2.buffer = [9] ∧ v2.bytesAppended = 1 ∧
      (WState.CLOSED = WState.CLOSED ↔ v2.wstate = WState.CLOSED) := by
  constructor
  · exact c5_flush_is_optional.1 ⟨1, WState.CLEAN, [2], 1, false, false⟩ rfl
  · exact c5_flush_is_optional.2 1 false [WEvent.append [9], WEvent.flushAsync, WEvent.close]
      ⟨1, WState.CLOSED, [9], 1, true, false⟩ rfl

/-- Witness for C4: after `FlushDataAsync` on a dirty block, `Append`
fails with `IllegalState`. -/
theorem c4_witness :
    (⟨1, WState.FLUSHING, [4], 1, true, false⟩ : WritableBlock).flushBegun = true ∧
    Append ⟨1, WState.FLUSHING, [4], 1, true, false⟩ [5] = .error .IllegalState :=
  ⟨c4_no_append_after_flush_or_close.1 ⟨1, WState.DIRTY, [4], 1, false, false⟩
     ⟨1, WState.FLUSHING, [4], 1, true, false⟩ rfl,
   c4_no_append_after_flush_or_close.2.2 ⟨1, WState.FLUSHING, [4], 1, true, false⟩
     [5] (Or.inl rfl)⟩

theorem dirLookup_mem (d : List (Nat × DirEntry)) (id : Nat) (e : DirEntry) :
    dirLookup d id = some e → (id, e) ∈ d := by
  induction d with
  | nil => intro h; simp [dirLookup] at h
  | cons p rest ih =>
    obtain ⟨k, en⟩ := p
    intro h
    unfold dirLookup at h
    split at h
    · rename_i hk
      obtain rfl : en = e := by simpa using h
      rw [hk]
      exact List.mem_cons_self _ _
    · exact List.mem_cons_of_mem _ (ih h)

theorem le_maxAssigned (d : List (Nat × DirEntry)) : ∀ k e, (k, e) ∈ d →
    k ≤ maxAssigned d := by
  induction d with
  | nil =>
    intro k e h
    simp at h
  | cons p rest ih =>
    obtain ⟨k0, e0⟩ := p
    intro k e h
    rcases List.mem_cons.mp h with h1 | h1
    · have h2 : k = k0 := by simpa using congrArg Prod.fst h1
      rw [h2]
      simp only [maxAssigned]
      exact le_max_left _ _
    · simp only [maxAssigned]
      exact le_trans (ih k e h1) (le_max_right _ _)

/-- Spec §4.1: a generated identifier is never currently assigned to any
live or pending-delete block, in every manager state. -/
theorem dirLookup_generateId (m : BlockManager) :
    dirLookup m.dir (GenerateId m) = none := by
  cases hl : dirLookup m.dir (GenerateId m) with
  | none => rfl
  | some e =>
    have hmem := dirLookup_mem m.dir (GenerateId m) e hl
    have hle := le_maxAssigned m.dir (GenerateId m) e hmem
    have hgt : maxAssigned m.dir + 1 ≤ GenerateId m := le_max_right _ _
    omega

/-- C6: after `OpenBlock` and then a successful `DeleteBlock` on the same
ID, the ID is immediately rejected by `OpenBlock` (`NotFound`) and by
`CreateNamedBlock` (`AlreadyExists`, the entry is pending deletion); the
directory entry is not reclaimed while the reader is open, the pre-delete
reader still returns the pre-delete size and content, and closing the last
open handle reclaims the entry. -/
theorem c6_deferred_deletion
    (m m1 m2 : BlockManager) (id : Nat) (rb : ReadableBlock) (e : DirEntry)
    (fault : Bool)
    (hl : dirLookup m.dir id = some e)
    (ho : OpenBlock m id = .ok (m1, rb))
    (hd : DeleteBlock m1 id = .ok m2) :
    OpenBlock m2 id = .error .NotFound ∧
    CreateNamedBlock m2 id fault = .error .AlreadyExists ∧
    rb.data = e.content ∧ rb.closed = false ∧
    Size rb = .ok e.content.length ∧
    Read rb 0 e.content.length = .ok e.content ∧
    dirLookup m2.dir id =
      some ⟨e.content, e.durable, true, e.readerRefs + 1, e.writerRefs⟩ ∧
    (e.readerRefs = 0 → e.writerRefs = 0 →
      ∃ m3 rb2, ManagerCloseReader m2 rb = .ok (m3, rb2) ∧
        dirLookup m3.dir id = none) := by
  unfold OpenBlock at ho
  rw [hl] at ho
  split at ho
  · exact absurd ho (by simp)
  · rename_i e2 heq
    obtain rfl : e = e2 := by simpa using heq
    split at ho
    · exact absurd ho (by simp)
    · rename_i hnd
      push_neg at hnd
      obtain ⟨hdel0, hdur0⟩ := hnd
      have hdel : e.deleted = false := by simpa using hdel0
      have hdur : e.durable = true := by simpa using hdur0
      simp only [Except.ok.injEq, Prod.mk.injEq] at ho
      obtain ⟨hm1, hrb⟩ := ho
      have hdir1 : dirLookup m1.dir id =
          some ⟨e.content, e.durable, e.deleted, e.readerRefs + 1, e.writerRefs⟩ := by
        rw [← hm1]
        simp only [dirLookup_update_self, hl]
        rfl
      unfold DeleteBlock at hd
      rw [hdir1] at hd
      split at hd
      · exact absurd hd (by simp)
      · rename_i e3 heq3
        obtain rfl :
            (⟨e.content, e.durable, e.deleted, e.readerRefs + 1, e.writerRefs⟩ :
              DirEntry) = e3 := by
          simpa using heq3
        simp only [hdel] at hd
        simp only [Bool.false_eq_true, if_false, Except.ok.injEq] at hd
        have hup : dirLookup
            (dirUpdate m1.dir id (fun en => { en with deleted := true })) id =
            some ⟨e.content, e.durable, true, e.readerRefs + 1, e.writerRefs⟩ := by
          rw [dirLookup_update_self, hdir1]
          rfl
        have hdir2 : dirLookup m2.dir id =
            some ⟨e.content, e.durable, true, e.readerRefs + 1, e.writerRefs⟩ := by
          rw [← hd]
          unfold reclaimIfUnreferenced
          simp [hup]
        have hdata : rb.data = e.content := by rw [← hrb]
        have hclosed : rb.closed = false := by rw [← hrb]
        have hbid : rb.bid = id := by rw [← hrb]
        refine ⟨?_, ?_, hdata, hclosed, ?_, ?_, hdir2, ?_⟩
        · unfold OpenBlock
          rw [hdir2]
          simp
        · unfold CreateNamedBlock createBlockWith
          rw [hdir2]
        · simp [Size, hclosed, hdata]
        · simp [Read, hclosed, hdata]
        · intro hr0 hw0
          have hd2 := hdir2
          rw [hr0, hw0] at hd2
          have hup2 : dirLookup
              (dirUpdate m2.dir id (fun en => { en with readerRefs := en.readerRefs - 1 })) id =
              some ⟨e.content, e.durable, true, 0, 0⟩ := by
            rw [dirLookup_update_self, hd2]
            rfl
          refine ⟨reclaimIfUnreferenced { m2 with dir := dirUpdate m2.dir rb.bid (fun en => { en with readerRefs := en.readerRefs - 1 }) } rb.bid, { rb with closed := true }, ?_, ?_⟩
          · unfold ManagerCloseReader
            rw [hclosed]
            simp
          · rw [hbid]
            unfold reclaimIfUnreferenced
            simp [hup2, dirLookup_remove_self]

/-- Witness for C6 at a concrete manager holding one durable block. -/
theorem c6_witness :
    OpenBlock ⟨[(5, ⟨[9], true, true, 1, 0⟩)], 6⟩ 5 = .error .NotFound ∧
    CreateNamedBlock ⟨[(5, ⟨[9], true, true, 1, 0⟩)], 6⟩ 5 false =
      .error .AlreadyExists ∧
    ([9] : List Nat) = [9] ∧ false = false ∧
    Size ⟨5, [9], false⟩ = .ok 1 ∧
    Read ⟨5, [9], false⟩ 0 1 = .ok [9] ∧
    dirLookup [(5, ⟨[9], true, true, 1, 0⟩)] 5 = some ⟨[9], true, true, 1, 0⟩ ∧
    (0 = 0 → 0 = 0 →
      ∃ m3 rb2, ManagerCloseReader ⟨[(5, ⟨[9], true, true, 1, 0⟩)], 6⟩ ⟨5, [9], false⟩ =
        .ok (m3, rb2) ∧ dirLookup m3.dir 5 = none) :=
  c6_deferred_deletion ⟨[(5, ⟨[9], true, false, 0, 0⟩)], 6⟩
    ⟨[(5, ⟨[9], true, false, 1, 0⟩)], 6⟩
    ⟨[(5, ⟨[9], true, true, 1, 0⟩)], 6⟩ 5 ⟨5, [9], false⟩
    ⟨[9], true, false, 0, 0⟩ false rfl rfl rfl

/-- C7: `CreateNamedBlock` fails with `AlreadyExists` whenever the ID has
a directory entry (live or pending deletion), while `CreateAnonymousBlock`
never fails: in every manager state its generated ID is fresh, so no ID
collision is possible. -/
theorem c7_create_collision (m : BlockManager) (id : Nat) (fault : Bool) :
    ((dirLookup m.dir id).isSome = true →
      CreateNamedBlock m id fault = .error .AlreadyExists) ∧
    (∃ m2 w, CreateAnonymousBlock m fault = .ok (m2, w)) := by
  constructor
  · intro h
    unfold CreateNamedBlock createBlockWith
    cases hl : dirLookup m.dir id with
    | none => rw [hl] at h; simp at h
    | some e => rfl
  · unfold CreateAnonymousBlock createBlockWith
    simp only []
    rw [dirLookup_generateId]
    exact ⟨_, _, rfl⟩

/-- Witness for C7: a colliding named create fails, and anonymous creation
succeeds even on a manager whose counter lags behind a caller-named ID. -/
theorem c7_witness :
    CreateNamedBlock ⟨[(3, ⟨[], true, false, 0, 0⟩)], 4⟩ 3 false =
      .error .AlreadyExists ∧
    ∃ m2 w, CreateAnonymousBlock ⟨[(7, ⟨[], true, false, 0, 0⟩)], 0⟩ false =
      .ok (m2, w) :=
  ⟨(c7_create_collision ⟨[(3, ⟨[], true, false, 0, 0⟩)], 4⟩ 3 false).1 rfl,
   (c7_create_collision ⟨[(7, ⟨[], true, false, 0, 0⟩)], 0⟩ 0 false).2⟩

/-- C8: `CloseBlocks` is the per-element `Close`: it produces exactly the
blocks that individual closes produce, reports the first encountered
error, and every block's final state is CLOSED exactly when its own close
succeeded (or it already was CLOSED). -/
theorem c8_close_blocks_batch :
    (∀ ws, (CloseBlocks ws).1 = ws.map (fun w => (closeWB w).1)) ∧
    (∀ ws, (CloseBlocks ws).2 = firstError (ws.map (fun w => (closeWB w).2))) ∧
    (∀ w w2, Close w = .ok w2 ↔ closeWB w = (w2, none)) ∧
    (∀ w, (closeWB w).1.wstate = WState.CLOSED ↔
      ((closeWB w).2 = none ∨ w.wstate = WState.CLOSED)) := by
  refine ⟨?_, ?_, ?_, ?_⟩
  · intro ws
    induction ws with
    | nil => rfl
    | cons w ws ih => simp [CloseBlocks, ih]
  · intro ws
    induction ws with
    | nil => rfl
    | cons w ws ih =>
      cases h2 : (closeWB w).2 with
      | none => simp [CloseBlocks, firstError, h2, ih]
      | some e => simp [CloseBlocks, firstError, h2]
  · intro w w2
    unfold Close
    cases hcb : closeWB w with
    | mk wc oe =>
      cases oe with
      | none => simp [eq_comm]
      | some e => simp
  · intro w
    unfold closeWB
    by_cases hC : w.wstate = WState.CLOSED
    · simp [hC]
    · by_cases hio : w.ioFault <;> simp [hC, hio]

/-- Witness for C8: a two-block batch where the second block's storage
faults: the first closes, the second stays DIRTY, and the reported error
is the second block's `IOError`. -/
theorem c8_witness :
    (CloseBlocks [⟨1, WState.DIRTY, [7], 1, false, false⟩,
                  ⟨2, WState.DIRTY, [8], 1, false, true⟩]).1 =
      [⟨1, WState.CLOSED, [7], 1, false, false⟩,
       ⟨2, WState.DIRTY, [8], 1, false, true⟩] ∧
    (CloseBlocks [⟨1, WState.DIRTY, [7], 1, false, false⟩,
                  ⟨2, WState.DIRTY, [8], 1, false, true⟩]).2 = some .IOError :=
  ⟨(c8_close_blocks_batch.1 [⟨1, WState.DIRTY, [7], 1, false, false⟩,
      ⟨2, WState.DIRTY, [8], 1, false, true⟩]).trans (by decide),
   (c8_close_blocks_batch.2.1 [⟨1, WState.DIRTY, [7], 1, false, false⟩,
      ⟨2, WState.DIRTY, [8], 1, false, true⟩]).trans (by decide)⟩

theorem runTrace_bytes (t : List WEvent) : ∀ w w2 : WritableBlock,
    runTrace w t = .ok w2 →
    w2.bytesAppended = w.bytesAppended + appendedBytes t := by
  induction t with
  | nil =>
    intro w w2 h
    obtain rfl : w = w2 := by simpa [runTrace] using h
    simp [appendedBytes]
  | cons e es ih =>
    intro w w2 h
    unfold runTrace at h
    cases e with
    | append d =>
      rw [wstep] at h
      cases hA : Append w d with
      | error err => rw [hA] at h; exact absurd h (by simp)
      | ok w1 =>
        rw [hA] at h
        rw [append_ok_iff] at hA
        obtain ⟨_, _, rfl⟩ := hA
        have := ih _ w2 h
        simp [appendedBytes] at this ⊢
        omega
    | flushAsync =>
      rw [wstep] at h
      cases hA : FlushDataAsync w with
      | error err => rw [hA] at h; exact absurd h (by simp)
      | ok w1 =>
        rw [hA] at h
        rw [flushDataAsync_ok_iff] at hA
        obtain ⟨_, rfl⟩ := hA
        have := ih _ w2 h
        simpa [appendedBytes] using this
    | flushComplete =>
      rw [wstep] at h
      have := ih (FlushComplete w) w2 h
      rw [(flushComplete_fields w).2.1] at this
      simpa [appendedBytes] using this
    | close =>
      rw [wstep] at h
      cases hA : Close w with
      | error err => rw [hA] at h; exact absurd h (by simp)
      | ok w1 =>
        rw [hA] at h
        rw [close_ok_iff] at hA
        obtain ⟨_, _, rfl⟩ := hA
        have := ih _ w2 h
        simpa [appendedBytes] using this

/-- C9: `BytesAppended` counts exactly the bytes accepted by `Append` (a
successful append of `d` adds `d.length`; flush, flush completion and
close leave it untouched; over any successful trace from a fresh writer it
equals the total appended bytes), and it never decreases across any
successful event. -/
theorem c9_bytes_appended :
    (∀ w d w2, Append w d = .ok w2 →
      BytesAppended w2 = BytesAppended w + d.length) ∧
    (∀ w e w2, wstep w e = .ok w2 → BytesAppended w ≤ BytesAppended w2) ∧
    (∀ w w2, FlushDataAsync w = .ok w2 → BytesAppended w2 = BytesAppended w) ∧
    (∀ w w2, Close w = .ok w2 → BytesAppended w2 = BytesAppended w) ∧
    (∀ w, BytesAppended (FlushComplete w) = BytesAppended w) ∧
    (∀ (id : Nat) (fault : Bool) (t : List WEvent) (w2 : WritableBlock),
      runTrace (freshWriter id fault) t = .ok w2 →
      BytesAppended w2 = appendedBytes t) := by
  have hA : ∀ w d w2, Append w d = .ok w2 →
      BytesAppended w2 = BytesAppended w + d.length := by
    intro w d w2 h
    rw [append_ok_iff] at h
    obtain ⟨_, _, rfl⟩ := h
    rfl
  have hF : ∀ w w2, FlushDataAsync w = .ok w2 →
      BytesAppended w2 = BytesAppended w := by
    intro w w2 h
    rw [flushDataAsync_ok_iff] at h
    obtain ⟨_, rfl⟩ := h
    rfl
  have hC : ∀ w w2, Close w = .ok w2 → BytesAppended w2 = BytesAppended w := by
    intro w w2 h
    rw [close_ok_iff] at h
    obtain ⟨_, _, rfl⟩ := h
    rfl
  have hFC : ∀ w, BytesAppended (FlushComplete w) = BytesAppended w :=
    fun w => (flushComplete_fields w).2.1
  refine ⟨hA, ?_, hF, hC, hFC, ?_⟩
  · intro w e w2 h
    cases e with
    | append d => rw [hA w d w2 h]; omega
    | flushAsync => rw [hF w w2 h]
    | flushComplete =>
      obtain rfl : FlushComplete w = w2 := by simpa [wstep] using h
      rw [hFC w]
    | close => rw [hC w w2 h]
  · intro id fault t w2 h
    have := runTrace_bytes t (freshWriter id fault) w2 h
    simpa [freshWriter, BytesAppended] using this

/-- Witness for C9: a concrete append adds its length and a concrete trace
accounts for all accepted bytes. -/
theorem c9_witness :
    BytesAppended ⟨1, WState.DIRTY, [1,2,3], 3, false, false⟩ =
      BytesAppended ⟨1, WState.DIRTY, [1], 1, false, false⟩ + 2 ∧
    BytesAppended ⟨1, WState.CLOSED, [1,2], 2, true, false⟩ =
      appendedBytes [WEvent.append [1], WEvent.append [2], WEvent.flushAsync,
                     WEvent.close] :=
  ⟨c9_bytes_appended.1 ⟨1, WState.DIRTY, [1], 1, false, false⟩ [2,3]
     ⟨1, WState.DIRTY, [1,2,3], 3, false, false⟩ rfl,
   c9_bytes_appended.2.2.2.2.2 1 false
     [WEvent.append [1], WEvent.append [2], WEvent.flushAsync, WEvent.close]
     ⟨1, WState.CLOSED, [1,2], 2, true, false⟩ rfl⟩

/-- C10: when `CreateAnonymousBlock`, `CreateNamedBlock` or `OpenBlock`
returns an error, the caller's output handle variable is left exactly as
it was: no partially constructed handle is exposed. -/
theorem c10_out_param_unmodified :
    (∀ m fault out e, (createAnonymousBlockOut m fault out).1 = .error e →
      (createAnonymousBlockOut m fault out).2 = out) ∧
    (∀ m id fault out e, (createNamedBlockOut m id fault out).1 = .error e →
      (createNamedBlockOut m id fault out).2 = out) ∧
    (∀ m id out e, (openBlockOut m id out).1 = .error e →
      (openBlockOut m id out).2 = out) := by
  refine ⟨?_, ?_, ?_⟩
  · intro m fault out e h
    unfold createAnonymousBlockOut at h ⊢
    cases hc : CreateAnonymousBlock m fault with
    | ok p => obtain ⟨m2, w⟩ := p; rw [hc] at h; simp at h
    | error err => rfl
  · intro m id fault out e h
    unfold createNamedBlockOut at h ⊢
    cases hc : CreateNamedBlock m id fault with
    | ok p => obtain ⟨m2, w⟩ := p; rw [hc] at h; simp at h
    | error err => rfl
  · intro m id out e h
    unfold openBlockOut at h ⊢
    cases hc : OpenBlock m id with
    | ok p => obtain ⟨m2, rb⟩ := p; rw [hc] at h; simp at h
    | error err => rfl

/-- Witness for C10: a failing named create (ID collision) leaves the
caller's handle variable holding its previous value. -/
theorem c10_witness :
    (createNamedBlockOut ⟨[(3, ⟨[], true, false, 0, 0⟩)], 4⟩ 3 false
      (some (freshWriter 9 false))).2 = some (freshWriter 9 false) :=
  c10_out_param_unmodified.2.1 ⟨[(3, ⟨[], true, false, 0, 0⟩)], 4⟩ 3 false
    (some (freshWriter 9 false)) ErrorKind.AlreadyExists rfl

end KuduFS
